import Mathlib

set_option maxHeartbeats 1000000
set_option maxRecDepth 4000

/-!
# Verification of the pmutils content-addressable distribution subsystem

A shallow embedding, in Lean 4, of the parts of `pmutils` that the claims
concern: the Arch version comparator boundary (`pmutils/version.py`,
`pmutils/package.py`), the local database (`pmutils/database.py`), the OCI
registry client (`pmutils/oci.py`), the repository coordinator
(`pmutils/registry.py`) and the streaming-upload retry loop
(`pmutils/vm/remote.py`).

Python strings are modelled as `List Char`; machine integers as `Int`/`Nat`
(no overflow is relevant anywhere here); network and file-system effects are
modelled by explicit state passing plus a trace of the HTTP operations each
function performs.
-/

/-! ## The external version comparator

`pmutils` delegates every version comparison to the Arch Linux comparator
(`pyalpm.vercmp` in `pmutils/version.py`, the `vercmp` CLI tool in
`pmutils/package.py`; both implement the same algorithm, libalpm's
`alpm_pkg_vercmp`). Modelled from the spec: the comparator itself is an
external collaborator, not part of this repository; the definitions below
follow the standard libalpm algorithm the spec names as the authority
("segment-wise alphanumeric comparison"; epoch first, then upstream version
by alternating numeric/alphabetic run comparison, then release). -/

namespace Vercmp

/-- The tail comparison of libalpm's `rpmvercmp`, applied once the main loop
has stopped: equal if both exhausted; a remaining alphabetic run never beats
an empty string. -/
def tailCmp (one two : List Char) : Int :=
  if one.isEmpty && two.isEmpty then 0
  else
    let headIsAlpha : List Char → Bool := fun l =>
      match l with
      | [] => false
      | c :: _ => c.isAlpha
    if (one.isEmpty && !(headIsAlpha two)) || headIsAlpha one then -1 else 1

/-- C `strcmp` restricted to the sign actually used by `rpmvercmp`
(`rc < 1 ? -1 : 1` when nonzero). -/
def strcmpSign : List Char → List Char → Int
  | [], [] => 0
  | [], _ :: _ => -1
  | _ :: _, [] => 1
  | a :: as, b :: bs =>
    if a.toNat < b.toNat then -1
    else if b.toNat < a.toNat then 1
    else strcmpSign as bs

/-- Main loop of libalpm's `rpmvercmp`, with explicit fuel (each iteration
consumes at least one character from each side, so any fuel of at least
`one.length + two.length + 1` is exact). -/
def rpmLoop : Nat → List Char → List Char → Int
  | 0, _, _ => 0
  | fuel + 1, one, two =>
    if one.isEmpty || two.isEmpty then tailCmp one two
    else
      -- skip any non-alphanumeric separator characters
      let sep1 := one.takeWhile (fun c => !c.isAlphanum)
      let o := one.dropWhile (fun c => !c.isAlphanum)
      let sep2 := two.takeWhile (fun c => !c.isAlphanum)
      let t := two.dropWhile (fun c => !c.isAlphanum)
      if o.isEmpty || t.isEmpty then tailCmp o t
      else if sep1.length ≠ sep2.length then
        if sep1.length < sep2.length then -1 else 1
      else
        let isnum := (o.headD ' ').isDigit
        let seg1 := if isnum then o.takeWhile Char.isDigit else o.takeWhile Char.isAlpha
        let rest1 := if isnum then o.dropWhile Char.isDigit else o.dropWhile Char.isAlpha
        let seg2 := if isnum then t.takeWhile Char.isDigit else t.takeWhile Char.isAlpha
        let rest2 := if isnum then t.dropWhile Char.isDigit else t.dropWhile Char.isAlpha
        -- a numeric segment always beats an (empty-here) alphabetic one
        if seg2.isEmpty then (if isnum then 1 else -1)
        else if isnum then
          let s1 := seg1.dropWhile (fun c => c = '0')
          let s2 := seg2.dropWhile (fun c => c = '0')
          if s2.length < s1.length then 1
          else if s1.length < s2.length then -1
          else
            let rc := strcmpSign s1 s2
            if rc = 0 then rpmLoop fuel rest1 rest2 else rc
        else
          let rc := strcmpSign seg1 seg2
          if rc = 0 then rpmLoop fuel rest1 rest2 else rc

/-- libalpm `rpmvercmp`: compare two alphanumeric version segments. -/
def rpmvercmp (a b : List Char) : Int :=
  if a = b then 0 else rpmLoop (a.length + b.length + 1) a b

/-- libalpm `parseEVR`: split a full version string into
(epoch, version, optional release). The epoch is the leading digit run when
followed by a colon, else `"0"`; the release is everything after the last
hyphen, when one exists. -/
def parseEVR (evr : List Char) : List Char × List Char × Option (List Char) :=
  let digs := evr.takeWhile Char.isDigit
  let s := evr.dropWhile Char.isDigit
  let (epoch, verRel) :=
    match s with
    | ':' :: rest => ((if digs.isEmpty then ['0'] else digs), rest)
    | _ => (['0'], evr)
  let rec splitAtLast : List Char → Option (List Char × List Char)
    | [] => none
    | x :: xs =>
      match splitAtLast xs with
      | some (a, b) => some (x :: a, b)
      | none => if x = '-' then some ([], xs) else none
  match splitAtLast verRel with
  | some (v, r) => (epoch, v, some r)
  | none => (epoch, verRel, none)

/-- libalpm `alpm_pkg_vercmp`: negative / zero / positive like the Python
`pyalpm.vercmp` and the `vercmp` CLI used by the source. -/
def vercmp (a b : List Char) : Int :=
  if a = b then 0
  else
    let (e1, v1, r1) := parseEVR a
    let (e2, v2, r2) := parseEVR b
    let ret := rpmvercmp e1 e2
    if ret ≠ 0 then ret
    else
      let ret2 := rpmvercmp v1 v2
      if ret2 ≠ 0 then ret2
      else
        match r1, r2 with
        | some x, some y => rpmvercmp x y
        | _, _ => 0

theorem vercmp_self (a : List Char) : vercmp a a = 0 := by
  simp [vercmp]

end Vercmp

/-! ## Python string/int helpers used by `Version` -/

namespace Py

/-- Decimal digit character for a value below ten. -/
def digitChar (d : Nat) : Char := Char.ofNat (48 + d)

/-- Python `str` of a non-negative integer: decimal digits, most significant
first. -/
def natDecimal (n : Nat) : List Char :=
  if h : n < 10 then [digitChar n]
  else natDecimal (n / 10) ++ [digitChar (n % 10)]
  decreasing_by
    have : 10 ≤ n := Nat.le_of_not_lt h
    exact Nat.div_lt_self (by omega) (by omega)

/-- Python `str` of an `int`. -/
def intStr (n : Int) : List Char :=
  if n < 0 then '-' :: natDecimal n.natAbs else natDecimal n.natAbs

/-- Numeric value of a digit character. -/
def digitVal (c : Char) : Nat := c.toNat - 48

/-- Value of a list of decimal digit characters. -/
def digitsVal (l : List Char) : Nat :=
  l.foldl (fun acc c => 10 * acc + digitVal c) 0

/-- Python `int(s)` on a string of decimal digits (with an optional leading
minus sign); `none` models `ValueError`. Whitespace, a leading plus and
underscore separators, which Python also accepts, are not modelled: no string
the source ever builds contains them. -/
def pyNat (l : List Char) : Option Nat :=
  if !l.isEmpty && l.all Char.isDigit then some (digitsVal l) else none

def pyInt (l : List Char) : Option Int :=
  match l with
  | [] => none
  | c :: rest =>
    if c = '-' then (pyNat rest).map (fun n => -(n : Int))
    else (pyNat (c :: rest)).map (fun n => (n : Int))

/-- Python `s.split(c)`: split on every occurrence of `c`. -/
def split (c : Char) : List Char → List (List Char)
  | [] => [[]]
  | x :: xs =>
    match split c xs with
    | h :: t => if x = c then [] :: h :: t else (x :: h) :: t
    | [] => if x = c then [[], []] else [[x]]

/-- Split a list at the last occurrence of `c`, when there is one. -/
def splitAtLast (c : Char) : List Char → Option (List Char × List Char)
  | [] => none
  | x :: xs =>
    match splitAtLast c xs with
    | some (a, b) => some (x :: a, b)
    | none => if x = c then some ([], xs) else none

/-- Python `s.rsplit(c, maxsplit=1)`. -/
def rsplit1 (c : Char) (l : List Char) : List (List Char) :=
  match splitAtLast c l with
  | some (a, b) => [a, b]
  | none => [l]

end Py

/-! ## `Version` (`pmutils/package.py` lines 14-49, `pmutils/version.py`
lines 32-74)

The two files declare structurally identical dataclasses with identical
`__str__`, `sanitise` and `parse`; they differ only in `__eq__`:
`package.py`'s `Version` is `@dataclass(eq=True)`, so its equality is
structural (field-wise), while `version.py`'s `Version` overrides `__eq__`
with `isinstance(other, Self) and pyalpm.vercmp(str(self), str(other)) == 0`
— whose `isinstance` check against `typing.Self` raises `TypeError` at run
time, before the comparator is ever consulted. Both delegate `<` and `>` to
the external comparator. -/

structure PVersion where
  epoch : Int
  pkgver : List Char
  pkgrel : List Char
deriving DecidableEq

namespace PVersion

/-- `Version.__str__`: `[epoch:]pkgver-pkgrel`, the epoch omitted when not
positive. -/
def vstr (v : PVersion) : List Char :=
  (if v.epoch > 0 then Py.intStr v.epoch ++ [':'] else []) ++ v.pkgver ++ '-' :: v.pkgrel

/-- `Version.sanitise`: replace characters illegal in a registry tag. -/
def sanitise (v : PVersion) : List Char :=
  v.vstr.map (fun c => if c = ':' then '-' else if c = '+' then '_' else c)

/-- `package.py`'s `Version.__eq__` (generated by `@dataclass(eq=True)`):
structural, field-wise equality. This is the equality `Database.add` uses. -/
def structEq (u v : PVersion) : Bool := u == v

/-- The guard `isinstance(other, Self)` that opens `version.py`'s
`Version.__eq__` (`version.py` line 54). `Self` here is `typing.Self`, which
is not a class, and `isinstance` against it raises
`TypeError: typing.Self cannot be used with isinstance()` — on every call,
whatever `other` is. -/
def isinstanceSelf (_other : PVersion) : Except String Bool :=
  .error "TypeError"

/-- `version.py`'s `Version.__eq__`:
`isinstance(other, Self) and pyalpm.vercmp(str(self), str(other)) == 0`.
Python's `and` evaluates its left operand first; that operand raises, so the
call never reaches the comparator. The result of a call is a returned
boolean (`.ok`) or a raised exception (`.error`). -/
def pyEq (u v : PVersion) : Except String Bool :=
  match isinstanceSelf v with
  | .error e => .error e
  | .ok b => .ok (b && (Vercmp.vercmp u.vstr v.vstr == 0))

/-- `Version.__gt__` (both files): `vercmp(str(self), str(other)) > 0`. -/
def vgt (u v : PVersion) : Bool := Vercmp.vercmp u.vstr v.vstr > 0

/-- `Version.parse` (identical in both files): optional `epoch:` prefix split
on every colon (a `ValueError` — modelled as `none` — unless that yields
exactly two parts), then `rsplit('-', 1)` into `pkgver` and `pkgrel`
(a `ValueError` when the string contains no hyphen). -/
def parse (s : List Char) : Option PVersion :=
  let parseVR : Int → List Char → Option PVersion := fun ep rest =>
    match Py.rsplit1 '-' rest with
    | [v, r] => some ⟨ep, v, r⟩
    | _ => none
  if s.contains ':' then
    match Py.split ':' s with
    | [e, rest] =>
      match Py.pyInt e with
      | some ep => parseVR ep rest
      | none => none
    | _ => none
  else parseVR 0 s

end PVersion

/-! ## `Package` (`pmutils/package.py` lines 60-117) -/

structure Pkg where
  name : String
  version : PVersion
  arch : Option String
  sha256 : String
  size : Nat
deriving DecidableEq

/-! ## `Database` (`pmutils/database.py`)

The database holds the on-disk mirror (`_packages` / `_names`) and the
pending-operation queues (`_additions`, `_add_names`, `_new_files`,
`_removals`). Python dicts keyed by name are modelled as insertion-ordered
association lists with update-in-place. File parsing, signing and the
external `repo-add`/`repo-remove` subprocesses are at the model's boundary:
`add` receives the already-parsed record for the file, and `save` reports
which external invocations happen instead of performing them. -/

namespace Db

/-- Python `d[k]`-style lookup in an insertion-ordered dict. -/
def dictGet (l : List (String × Pkg)) (k : String) : Option Pkg :=
  match l with
  | [] => none
  | (k', v) :: rest => if k' = k then some v else dictGet rest k

/-- Python `d[k] = v`: update in place, or append when absent. -/
def dictPut (l : List (String × Pkg)) (k : String) (v : Pkg) : List (String × Pkg) :=
  match l with
  | [] => [(k, v)]
  | (k', v') :: rest => if k' = k then (k, v) :: rest else (k', v') :: dictPut rest k v

structure Database where
  packages : List Pkg
  names : List (String × Pkg)
  additions : List String
  addNames : List (String × Pkg)
  newFiles : List (Pkg × String)
  removals : List Pkg
deriving DecidableEq

/-- `Database.add`'s inner `should_add` (`database.py` lines 66-89).
`none` models the implicit Python `None` returned when no branch fires
(which the caller, like `False`, treats as a rejection). The equal-version
branch uses `package.py`'s structural `Version` equality; the strict
comparisons delegate to the external comparator. -/
def shouldAdd (newPkg oldPkg : Pkg) (allowDowngrade : Bool) : Option Bool :=
  if PVersion.vgt newPkg.version oldPkg.version then some true
  else if PVersion.structEq oldPkg.version newPkg.version then
    (if newPkg.sha256 = oldPkg.sha256 then some false else some true)
  else if PVersion.vgt oldPkg.version newPkg.version then some allowDowngrade
  else none

/-- `Database.add` (`database.py` lines 55-132). `fileExists` models the
`path.exists` check; `newPkg` is the record `Package.parse` yields for
`file`. Signature generation (`gpg --detach-sig`) is external and does not
change the database state. Returns the updated database and the boolean
`add` returns. -/
def Database.add (db : Database) (fileExists : Bool) (file : String) (newPkg : Pkg)
    (allowDowngrade : Bool) : Database × Bool :=
  if !fileExists then (db, false)
  else
    -- `self._new_files.append((new_pkg, file))` happens before any
    -- should_add check (database.py line 64)
    let db := { db with newFiles := db.newFiles ++ [(newPkg, file)] }
    let accept : Database → Database × Bool := fun d =>
      ({ d with addNames := dictPut d.addNames newPkg.name newPkg,
                additions := d.additions ++ [file] }, true)
    match dictGet db.names newPkg.name with
    | some oldPkg =>
      if shouldAdd newPkg oldPkg allowDowngrade ≠ some true then (db, false)
      else accept { db with removals := db.removals ++ [oldPkg] }
    | none =>
      match dictGet db.addNames newPkg.name with
      | some oldPkg =>
        if shouldAdd newPkg oldPkg allowDowngrade ≠ some true then (db, false)
        else accept db
      | none => accept db

/-- `Database.remove` (`database.py` lines 48-53). -/
def Database.remove (db : Database) (pkg : Pkg) : Database :=
  if (dictGet db.names pkg.name).isNone then db
  else { db with removals := db.removals ++ [pkg] }

/-- What one `Database.save` call does and returns (`database.py` lines
138-167): which external rebuild-tool invocations run (`repo-remove` with the
queued names, `repo-add` with the queued files), whether the in-memory state
was reloaded from disk, and the list the call returns. -/
structure SaveEffect where
  repoRemoveArgs : Option (List String)
  repoAddArgs : Option (List String)
  reloaded : Bool
  returned : List (Pkg × String)
deriving DecidableEq

/-- `reload_from_file` (`database.py` lines 198-214): `packages` is re-read
from the archive (`diskAfter` stands for what the rebuilt archive contains);
`_names` is updated per package without being cleared first; all four queues
are reset. -/
def Database.reload (db : Database) (diskAfter : List Pkg) : Database :=
  { packages := diskAfter
    names := diskAfter.foldl (fun ns p => dictPut ns p.name p) db.names
    additions := []
    addNames := []
    newFiles := []
    removals := [] }

/-- `Database.save` (`database.py` lines 138-167). The lock-file poll and the
subprocess calls are external; `diskAfter` stands for the package set the
rebuilt archive contains when a rebuild runs. Returns the new database state
and the effect record. -/
def Database.save (db : Database) (diskAfter : List Pkg) : Database × SaveEffect :=
  let remArgs := if db.removals.length > 0 then some (db.removals.map (·.name)) else none
  let addArgs := if db.additions.length > 0 then some db.additions else none
  let newFiles := db.newFiles
  if db.removals.length + db.additions.length > 0 then
    (db.reload diskAfter, ⟨remArgs, addArgs, true, newFiles⟩)
  else
    (db, ⟨remArgs, addArgs, false, newFiles⟩)

end Db

/-! ## Media types (`pmutils/mimes`)

Modelled from the spec: the `mimes` module itself is not under `src/` (only
its uses are); the spec's registry-protocol section fixes the manifest,
index, config and raw-bytes media types as the standard OCI ones. Only their
pairwise distinctness matters to the modelled code. -/

namespace Mimes

def MANIFEST : String := "application/vnd.oci.image.manifest.v1+json"
def INDEX : String := "application/vnd.oci.image.index.v1+json"
def CONFIG : String := "application/vnd.oci.image.config.v1+json"
def BYTES : String := "application/octet-stream"

end Mimes

/-! ## `OciWrapper.upload_blob` (`pmutils/oci.py` lines 218-242)

The registry's blob store is a content-addressed set of
(namespace, digest) pairs. The mocked registry answers the HEAD with 200
exactly when the blob is present; the POST and PUT outcomes are inputs
(`RegistryBehavior`), so both the well-behaved and the failing registries are
instances of the one definition. -/

namespace Oci

inductive BlobOp where
  | headBlob (ns digest : String)
  | postBlob (ns : String)
  | putBlob (ns digest : String)
deriving DecidableEq

structure BlobStore where
  blobs : List (String × String)
deriving DecidableEq

/-- Status codes the registry returns for the blob-upload POST and PUT. -/
structure RegistryBehavior where
  postStatus : Nat
  putStatus : Nat
deriving DecidableEq

def is2xx (n : Nat) : Bool := 200 ≤ n && n ≤ 299

/-- The registry every claim about sequences of successful calls assumes:
POST yields the upload location (202) and PUT stores the blob (201). -/
def okRegistry : RegistryBehavior := ⟨202, 201⟩

/-- `OciWrapper.upload_blob`: HEAD first and skip when present; otherwise
POST for the upload location (an error return `False` when that fails);
otherwise PUT — and return `True` whether or not the PUT succeeded (a failed
PUT only logs `msg.error`). The blob is durably stored exactly when the PUT
succeeds. Returns (returned boolean, request trace, new store). -/
def uploadBlob (beh : RegistryBehavior) (st : BlobStore) (ns digest : String) :
    Bool × List BlobOp × BlobStore :=
  if (ns, digest) ∈ st.blobs then
    (false, [.headBlob ns digest], st)
  else if !is2xx beh.postStatus then
    (false, [.headBlob ns digest, .postBlob ns], st)
  else
    let st' := if is2xx beh.putStatus
      then { st with blobs := st.blobs ++ [(ns, digest)] } else st
    (true, [.headBlob ns digest, .postBlob ns, .putBlob ns digest], st')

/-! ## Manifests and indices (`pmutils/oci.py`)

Content addressing is modelled by letting a manifest's digest be the
manifest value itself: two manifests have the same digest exactly when their
JSON serialisations coincide, which is what a collision-free hash provides.
The `size` fields of descriptors are never read by the modelled code and are
omitted. -/

structure Platform where
  os : String
  architecture : String
deriving DecidableEq

/-- A Python value that can appear in the platform comparisons: either the
`str` the caller passes for `platform`, or the `{"os": .., "architecture":
..}` dict stored in the index. -/
inductive PyPlat where
  | str : String → PyPlat
  | obj : Platform → PyPlat
deriving DecidableEq

/-- Python `==` on those values. Values of different types — a `str` against
a `dict` — are never equal in Python; two platform dicts compare field-wise. -/
def pyPlatEq : PyPlat → PyPlat → Bool
  | .str a, .str b => a == b
  | .obj a, .obj b => a == b
  | _, _ => false

structure OciObject where
  sha256 : String
  mime : String
  size : Nat
deriving DecidableEq

/-- `OciManifest` (`oci.py` lines 74-130). `version` enters the model by its
string form (`IVersion` is only ever used through `str` and `sanitise`, and
`sanitise` is the same character replacement in every implementation). -/
structure OciManifest where
  name : String
  versionStr : List Char
  remoteUrl : String
  layers : List OciObject
  description : Option String
  config : Option OciObject
deriving DecidableEq

/-- `version.sanitise()` of the manifest's version. -/
def OciManifest.tag (m : OciManifest) : List Char :=
  m.versionStr.map (fun c => if c = ':' then '-' else if c = '+' then '_' else c)

/-- `cfg = self.config or self.layers[0]` (`oci.py` line 89 and line 380).
Python raises `IndexError` on an empty layer list; that case is never
exercised and is given a dummy value here. -/
def OciManifest.cfg (m : OciManifest) : OciObject :=
  m.config.getD (m.layers.headD ⟨"", "", 0⟩)

/-- The content of the manifest JSON `OciManifest.obj()` builds
(`oci.py` lines 87-108): schema version 2, manifest media type, the four
annotations, a config descriptor with the config media type, and the layers. -/
structure ManifestVal where
  schemaVersion : Nat
  mediaType : String
  name : String
  versionStr : List Char
  remoteUrl : String
  description : String
  configDigest : String
  configMediaType : String
  configSize : Nat
  layers : List OciObject
deriving DecidableEq

def OciManifest.toObj (m : OciManifest) : ManifestVal :=
  { schemaVersion := 2
    mediaType := Mimes.MANIFEST
    name := m.name
    versionStr := m.versionStr
    remoteUrl := m.remoteUrl
    description := m.description.getD ""
    configDigest := m.cfg.sha256
    configMediaType := Mimes.CONFIG
    configSize := m.cfg.size
    layers := m.layers }

/-- One entry of the raw `"manifests"` array of an index, as written by
`OciWrapper.upload` and read back by `check_existence`. The digest is the
referenced manifest's content (see above). -/
structure Desc where
  mediaType : String
  digest : ManifestVal
  platform : Option Platform
deriving DecidableEq

/-- The raw index JSON at a tag (`oci.py` lines 292-302). -/
structure IndexVal where
  schemaVersion : Nat
  mediaType : String
  manifests : List Desc
  name : String
  versionStr : List Char
deriving DecidableEq

/-- The manifest/tag side of one registry namespace's state. `manifests` is
the content-addressed manifest store; `tags` maps (namespace, tag) to the
index last PUT there. -/
structure OciReg where
  manifests : List (String × ManifestVal)
  tags : List ((String × List Char) × IndexVal)
deriving DecidableEq

def tagGet (l : List ((String × List Char) × IndexVal)) (k : String × List Char) :
    Option IndexVal :=
  match l with
  | [] => none
  | (k', v) :: rest => if k' = k then some v else tagGet rest k

def tagPut (l : List ((String × List Char) × IndexVal)) (k : String × List Char)
    (v : IndexVal) : List ((String × List Char) × IndexVal) :=
  match l with
  | [] => [(k, v)]
  | (k', v') :: rest => if k' = k then (k, v) :: rest else (k', v') :: tagPut rest k v

/-- Content-addressed PUT of a manifest: storing the same content twice is
one stored object. -/
def manifestPut (l : List (String × ManifestVal)) (ns : String) (m : ManifestVal) :
    List (String × ManifestVal) :=
  if (ns, m) ∈ l then l else l ++ [(ns, m)]

inductive Existence where
  | NONE
  | EXISTS
  | CONFLICTS
deriving DecidableEq

inductive UploadResult where
  | UPLOADED
  | EXISTS
deriving DecidableEq

/-- The loop over `index["manifests"]` in `check_existence` (`oci.py` lines
360-367): entries whose media type is not the manifest media type are skipped
outright; a matching entry overwrites `this_manifest_digest` (the last match
wins); every other manifest-typed entry is appended to `other_manifests`.
The match condition is the code's
`(platform is None) or ("platform" not in mmm) or (platform == mmm["platform"])`,
whose last disjunct compares the `str` argument with the platform dict. -/
def scanStep (platform : Option String) (acc : Option ManifestVal × List Desc)
    (d : Desc) : Option ManifestVal × List Desc :=
  if d.mediaType ≠ Mimes.MANIFEST then acc
  else
    let isMatch :=
      match platform, d.platform with
      | none, _ => true
      | some _, none => true
      | some p, some q => pyPlatEq (.str p) (.obj q)
    if isMatch then (some d.digest, acc.2) else (acc.1, acc.2 ++ [d])

def scanManifests (platform : Option String) (ms : List Desc) :
    Option ManifestVal × List Desc :=
  ms.foldl (scanStep platform) (none, [])

/-- `OciWrapper.check_existence` (`oci.py` lines 338-388). The GET of the
index returns 404 exactly when no index was ever PUT at the tag; the GET of
the referenced manifest returns 404 exactly when the digest is not in the
content-addressed store. -/
def checkExistence (st : OciReg) (ns : String) (m : OciManifest)
    (platform : Option String) : Existence × List Desc :=
  match tagGet st.tags (ns, m.tag) with
  | none => (.NONE, [])
  | some idx =>
    if idx.schemaVersion ≠ 2 || idx.mediaType ≠ Mimes.INDEX then (.NONE, [])
    else
      match scanManifests platform idx.manifests with
      | (none, others) => (.NONE, others)
      | (some d, others) =>
        if (ns, d) ∉ st.manifests then (.NONE, others)
        else if d.schemaVersion ≠ 2 || d.mediaType ≠ Mimes.MANIFEST
            || d.configMediaType ≠ Mimes.CONFIG then
          (.CONFLICTS, others)
        else if d.configDigest = m.cfg.sha256 then (.EXISTS, others)
        else (.CONFLICTS, others)

/-- The writes `OciWrapper.upload` and `Repository._upload_package` can
perform, in trace order. -/
inductive WOp where
  | headBlob (ns digest : String)
  | postBlob (ns : String)
  | putBlob (ns digest : String)
  | putManifest (ns : String) (d : ManifestVal)
  | putIndex (ns : String) (tag : List Char)
deriving DecidableEq

/-- HEAD is the only read among the traced operations. -/
def WOp.isWrite : WOp → Bool
  | .headBlob _ _ => false
  | _ => true

/-- `OciWrapper.upload` (`oci.py` lines 263-312): check existence; on
EXISTS return without any write; otherwise PUT the manifest at its own
digest, then PUT the new index — `other_manifests` plus a descriptor for
this manifest, platformed as `{"os": "darwin", "architecture": platform}`
when a platform was given — at the sanitised-version tag. -/
def upload (st : OciReg) (remote : String) (m : OciManifest)
    (platform : Option String) : UploadResult × OciReg × List WOp :=
  let ns := remote ++ "/" ++ m.name
  match checkExistence st ns m platform with
  | (.EXISTS, _) => (.EXISTS, st, [])
  | (_, others) =>
    let mv := m.toObj
    let st1 := { st with manifests := manifestPut st.manifests ns mv }
    let desc : Desc :=
      { mediaType := Mimes.MANIFEST
        digest := mv
        platform := platform.map (fun p => ⟨"darwin", p⟩) }
    let idx : IndexVal :=
      { schemaVersion := 2
        mediaType := Mimes.INDEX
        manifests := others ++ [desc]
        name := m.name
        versionStr := m.versionStr }
    let st2 := { st1 with tags := tagPut st1.tags (ns, m.tag) idx }
    (.UPLOADED, st2, [.putManifest ns mv, .putIndex ns m.tag])

end Oci

/-! ## `Repository._upload_package` path (`pmutils/registry.py` lines 159-307)

The same registry shape as the `Oci` namespace, but for the package-manifest
JSON that `Package.manifest()` builds; package manifests are likewise
content-addressed by their content. -/

namespace Reg

/-- `REPLACEMENTS` (`package.py` lines 52-57) applied by
`Package.sanitised_name`. -/
def sanitisedName (name : String) : String :=
  if name = "crypto++" then "cryptopp"
  else if name = "libsigc++" then "libsigcpp"
  else if name = "libsigc++-docs" then "libsigcpp-docs"
  else name

/-- The content of `pkg.manifest()` plus the annotations `_upload_package`
adds (`package.py` lines 76-90, `registry.py` lines 187-195): config and the
single layer both point at the package blob. `sourceUrl` is present exactly
when the registry URL contains "ghcr.io". -/
structure RManifestVal where
  schemaVersion : Nat
  mediaType : String
  configDigest : String
  configMediaType : String
  configSize : Nat
  layerDigest : String
  layerMediaType : String
  name : String
  versionStr : List Char
  sourceUrl : Option String
deriving DecidableEq

structure RDesc where
  mediaType : String
  digest : RManifestVal
  platform : Option Oci.Platform
deriving DecidableEq

structure RIndexVal where
  schemaVersion : Nat
  mediaType : String
  manifests : List RDesc
  name : String
  versionStr : List Char
deriving DecidableEq

structure RReg where
  blobs : List (String × String)
  manifests : List (String × RManifestVal)
  tags : List ((String × List Char) × RIndexVal)
deriving DecidableEq

def tagGet (l : List ((String × List Char) × RIndexVal)) (k : String × List Char) :
    Option RIndexVal :=
  match l with
  | [] => none
  | (k', v) :: rest => if k' = k then some v else tagGet rest k

def tagPut (l : List ((String × List Char) × RIndexVal)) (k : String × List Char)
    (v : RIndexVal) : List ((String × List Char) × RIndexVal) :=
  match l with
  | [] => [(k, v)]
  | (k', v') :: rest => if k' = k then (k, v) :: rest else (k', v') :: tagPut rest k v

def manifestPut (l : List (String × RManifestVal)) (ns : String) (m : RManifestVal) :
    List (String × RManifestVal) :=
  if (ns, m) ∈ l then l else l ++ [(ns, m)]

inductive RWOp where
  | headBlob (ns digest : String)
  | postBlob (ns : String)
  | putBlob (ns digest : String)
  | putIndex (ns : String) (tag : List Char)
  | putManifest (ns : String) (d : RManifestVal)
deriving DecidableEq

def RWOp.isWrite : RWOp → Bool
  | .headBlob _ _ => false
  | _ => true

/-- `Repository._get_package_platform` (`registry.py` lines 247-258):
`any` → no platform; the arm64 family → darwin/arm64; `x86_64` →
darwin/amd64; anything else logs an error and yields no platform. The arch
mapping inlined in `_upload_package` (lines 207-221) produces the same
descriptor platform. -/
def getPackagePlatform (arch : Option String) : Option Oci.Platform :=
  match arch with
  | none => none
  | some a =>
    if a = "any" then none
    else if a = "arm64" || a = "arm64e" || a = "aarch64" then some ⟨"darwin", "arm64"⟩
    else if a = "x86_64" then some ⟨"darwin", "amd64"⟩
    else none

/-- The loop over `index["manifests"]` in `_check_package_existence`
(`registry.py` lines 279-287). Unlike `OciWrapper.check_existence`, the
comparison here is between two platform dicts
(`pkg_platform == manifest["platform"]`). -/
def scanManifests (pkgPlat : Option Oci.Platform) (ms : List RDesc) :
    Option RManifestVal × List RDesc :=
  ms.foldl
    (fun acc d =>
      if d.mediaType ≠ Mimes.MANIFEST then acc
      else
        let isMatch :=
          match pkgPlat, d.platform with
          | none, _ => true
          | some _, none => true
          | some p, some q => Oci.pyPlatEq (.obj p) (.obj q)
        if isMatch then (some d.digest, acc.2) else (acc.1, acc.2 ++ [d]))
    (none, [])

/-- `Repository._check_package_existence` (`registry.py` lines 261-307). -/
def checkPackageExistence (st : RReg) (ns : String) (pkg : Pkg) :
    Oci.Existence × List RDesc :=
  match tagGet st.tags (ns, pkg.version.sanitise) with
  | none => (.NONE, [])
  | some idx =>
    if idx.schemaVersion ≠ 2 || idx.mediaType ≠ Mimes.INDEX then (.NONE, [])
    else
      match scanManifests (getPackagePlatform pkg.arch) idx.manifests with
      | (none, others) => (.NONE, others)
      | (some d, others) =>
        if (ns, d) ∉ st.manifests then (.NONE, others)
        else if d.schemaVersion ≠ 2 || d.mediaType ≠ Mimes.MANIFEST
            || d.configMediaType ≠ Mimes.CONFIG then
          (.CONFLICTS, others)
        else if d.configDigest = pkg.sha256 then (.EXISTS, others)
        else (.CONFLICTS, others)

/-- The manifest value `_upload_package` builds for a package
(`registry.py` lines 187-198). -/
def pkgManifest (pkg : Pkg) (remote : String) (isGhcr : Bool) : RManifestVal :=
  { schemaVersion := 2
    mediaType := Mimes.MANIFEST
    configDigest := pkg.sha256
    configMediaType := Mimes.CONFIG
    configSize := pkg.size
    layerDigest := pkg.sha256
    layerMediaType := Mimes.BYTES
    name := pkg.name
    versionStr := pkg.version.vstr
    sourceUrl := if isGhcr then some ("https://github.com/" ++ remote) else none }

/-- `Repository._upload_package` (`registry.py` lines 159-243): check
existence (EXISTS → no write at all); HEAD the package blob and, when
absent, POST for an upload location — a non-2xx POST returns from the whole
function (lines 177-179) — then PUT the blob; then PUT the new INDEX at the
sanitised-version tag (line 236) and only after that PUT the manifest at its
digest (line 240). `postOk` is the POST outcome; the blob and manifest PUT
responses are not checked by the code and the well-behaved registry stores
them. Returns the new state and the operation trace. -/
def uploadPackage (st : RReg) (remote : String) (pkg : Pkg) (isGhcr : Bool)
    (postOk : Bool) : RReg × List RWOp :=
  let ns := remote ++ "/" ++ sanitisedName pkg.name
  match checkPackageExistence st ns pkg with
  | (.EXISTS, _) => (st, [])
  | (_, others) =>
    let blobStep : Option (RReg × List RWOp) :=
      if (ns, pkg.sha256) ∈ st.blobs then some (st, [.headBlob ns pkg.sha256])
      else if !postOk then none
      else some ({ st with blobs := st.blobs ++ [(ns, pkg.sha256)] },
        [.headBlob ns pkg.sha256, .postBlob ns, .putBlob ns pkg.sha256])
    match blobStep with
    | none => (st, [.headBlob ns pkg.sha256, .postBlob ns])
    | some (st1, blobOps) =>
      let mv := pkgManifest pkg remote isGhcr
      let desc : RDesc :=
        { mediaType := Mimes.MANIFEST
          digest := mv
          platform := getPackagePlatform pkg.arch }
      let idx : RIndexVal :=
        { schemaVersion := 2
          mediaType := Mimes.INDEX
          manifests := others ++ [desc]
          name := pkg.name
          versionStr := pkg.version.vstr }
      -- index PUT first (line 236), manifest PUT second (line 240)
      let st2 := { st1 with tags := tagPut st1.tags (ns, pkg.version.sanitise) idx }
      let st3 := { st2 with manifests := manifestPut st2.manifests ns mv }
      (st3, blobOps ++ [.putIndex ns pkg.version.sanitise, .putManifest ns mv])

end Reg

/-! ## The streaming-upload worker retry loop (`pmutils/vm/remote.py` lines
140-171)

The inner `while True` of `upload_func`, for a single queue item:
`retries = 0`; each iteration attempts the blob upload; on success `break`;
on an exception, `retries += 1; continue` while `retries < 2` — and when
`retries` has reached 2 the `except` body does nothing, so control falls to
the end of the `while True` body and the loop runs again. `outcome n` says
whether attempt number `n` (counting from 0) succeeds. -/

namespace VmRemote

structure LoopState where
  retries : Nat
  attempts : Nat
  done : Bool
deriving DecidableEq

/-- One iteration of the inner `while True`. -/
def loopStep (succeeds : Bool) (s : LoopState) : LoopState :=
  if s.done then s
  else if succeeds then { s with attempts := s.attempts + 1, done := true }
  else if s.retries < 2 then
    { s with attempts := s.attempts + 1, retries := s.retries + 1 }
  else
    { s with attempts := s.attempts + 1 }

/-- The loop state after `n` iterations for one queue item. -/
def runLoop (outcome : Nat → Bool) : Nat → LoopState
  | 0 => ⟨0, 0, false⟩
  | n + 1 =>
    let s := runLoop outcome n
    loopStep (outcome s.attempts) s

end VmRemote

/-! ## Theorems -/

/-- C1: `OciWrapper.upload_blob` HEADs first and, when the blob is present,
performs no POST and no PUT and leaves the registry unchanged; uploading the
same blob twice from a state where it is absent performs exactly one
initiate+put sequence, the second call performing only the existence check
and leaving the state unchanged. -/
theorem claim_C1_upload_blob_dedup (ns d : String) (st : Oci.BlobStore) :
    ((ns, d) ∈ st.blobs →
      Oci.uploadBlob Oci.okRegistry st ns d = (false, [.headBlob ns d], st))
    ∧ ((ns, d) ∉ st.blobs →
      Oci.uploadBlob Oci.okRegistry st ns d =
        (true, [.headBlob ns d, .postBlob ns, .putBlob ns d],
          ⟨st.blobs ++ [(ns, d)]⟩)
      ∧ Oci.uploadBlob Oci.okRegistry ⟨st.blobs ++ [(ns, d)]⟩ ns d =
        (false, [.headBlob ns d], ⟨st.blobs ++ [(ns, d)]⟩)
      ∧ (((Oci.uploadBlob Oci.okRegistry st ns d).2.1
            ++ (Oci.uploadBlob Oci.okRegistry ⟨st.blobs ++ [(ns, d)]⟩ ns d).2.1).count
          (Oci.BlobOp.postBlob ns) = 1
        ∧ ((Oci.uploadBlob Oci.okRegistry st ns d).2.1
            ++ (Oci.uploadBlob Oci.okRegistry ⟨st.blobs ++ [(ns, d)]⟩ ns d).2.1).count
          (Oci.BlobOp.putBlob ns d) = 1)) := by
  constructor
  · intro h
    simp [Oci.uploadBlob, h]
  · intro h
    have h2 : (ns, d) ∈ st.blobs ++ [(ns, d)] := by simp
    refine ⟨?_, ?_, ?_⟩
    · simp [Oci.uploadBlob, h, Oci.okRegistry, Oci.is2xx]
    · simp [Oci.uploadBlob, h2]
    · simp [Oci.uploadBlob, h, h2, Oci.okRegistry, Oci.is2xx, List.count_cons,
        List.count_append]

theorem claim_C1_witness :
    (("n", "d") ∉ (Oci.BlobStore.mk []).blobs)
    ∧ Oci.uploadBlob Oci.okRegistry ⟨[]⟩ "n" "d" =
        (true, [.headBlob "n" "d", .postBlob "n", .putBlob "n" "d"], ⟨[("n", "d")]⟩) := by
  refine ⟨by simp, ?_⟩
  have h := (claim_C1_upload_blob_dedup "n" "d" ⟨[]⟩).2 (by simp)
  simpa using h.1

/-- C9: the boolean `upload_blob` returns does not mean success: it is
`False` both on the dedup skip (HEAD 200) and on a failed POST, and it is
`True` whenever the final PUT is attempted — also when that PUT fails — so
some failing runs return `True` without a durably stored blob. -/
theorem claim_C9_upload_blob_result (beh : Oci.RegistryBehavior)
    (st : Oci.BlobStore) (ns d : String) :
    ((ns, d) ∈ st.blobs → (Oci.uploadBlob beh st ns d).1 = false)
    ∧ ((ns, d) ∉ st.blobs → Oci.is2xx beh.postStatus = false →
        (Oci.uploadBlob beh st ns d).1 = false)
    ∧ ((ns, d) ∉ st.blobs → Oci.is2xx beh.postStatus = true →
        (Oci.uploadBlob beh st ns d).1 = true)
    ∧ (∃ (beh' : Oci.RegistryBehavior) (st' : Oci.BlobStore) (ns' d' : String),
        (Oci.uploadBlob beh' st' ns' d').1 = true
        ∧ (ns', d') ∉ (Oci.uploadBlob beh' st' ns' d').2.2.blobs) := by
  refine ⟨fun h => by simp [Oci.uploadBlob, h],
    fun h hp => by simp [Oci.uploadBlob, h, hp],
    fun h hp => by simp [Oci.uploadBlob, h, hp],
    ⟨⟨202, 500⟩, ⟨[]⟩, "n", "d", by simp [Oci.uploadBlob, Oci.is2xx]⟩⟩

theorem claim_C9_witness :
    (("n", "d") ∈ (Oci.BlobStore.mk [("n", "d")]).blobs)
    ∧ (Oci.uploadBlob ⟨400, 400⟩ ⟨[("n", "d")]⟩ "n" "d").1 = false := by
  exact ⟨by simp, (claim_C9_upload_blob_result ⟨400, 400⟩ ⟨[("n", "d")]⟩ "n" "d").1 (by simp)⟩

/-- C8: the claim says each blob is attempted at most 3 times before the
worker gives up and proceeds; in the code the `except` branch does nothing
once `retries` has reached 2, so the inner `while True` never exits for a
blob whose upload keeps failing: after `n` iterations the worker has made
`n` attempts, `retries` is capped at 2, and the item is never finished. -/
theorem claim_C8_retry_unbounded (n : Nat) :
    VmRemote.runLoop (fun _ => false) n = ⟨min n 2, n, false⟩ := by
  induction n with
  | zero => simp [VmRemote.runLoop]
  | succ n ih =>
    rw [VmRemote.runLoop, ih]
    unfold VmRemote.loopStep
    by_cases h : n < 2
    · have h1 : min n 2 = n := by omega
      have h2 : min (n + 1) 2 = n + 1 := by omega
      simp [h1, h2, h]
    · have h1 : min n 2 = 2 := by omega
      have h2 : min (n + 1) 2 = 2 := by omega
      simp [h1, h2]

/-! ### Concrete instances used by the counterexamples -/

/-- The pair `1.0-1` / `1.0-01`: the comparator treats the releases `1` and
`01` as the same number, the structural dataclass equality does not. -/
def c7u : PVersion := ⟨0, "1.0".data, "1".data⟩

def c7v : PVersion := ⟨0, "1.0".data, "01".data⟩

/-- C7, counterexample: `package.py`'s `Version` equality — the one
`Database.add`'s equal-version branch uses — is structural, not
comparator-based: on `1.0-1` versus `1.0-01` the external comparator reports
equality while the dataclass equality does not, so equality does not hold
iff vercmp reports 0. -/
theorem claim_C7_counterexample :
    Vercmp.vercmp c7u.vstr c7v.vstr = 0
    ∧ PVersion.structEq c7u c7v = false
    ∧ ¬(PVersion.structEq c7u c7v = true ↔ Vercmp.vercmp c7u.vstr c7v.vstr = 0) := by
  decide

def c6Old : Pkg := ⟨"foo", ⟨0, "1.0".data, "01".data⟩, some "x86_64", "h1", 10⟩

def c6New : Pkg := ⟨"foo", ⟨0, "1.0".data, "1".data⟩, some "x86_64", "h2", 11⟩

def c6Db : Db.Database := ⟨[c6Old], [("foo", c6Old)], [], [], [], []⟩

/-- C6, counterexample: the claim (with the spec's comparator-based reading
of "the versions are equal") says an add with an equal version and a
different hash warns and proceeds as if newer; on `1.0-1` against an on-disk
`1.0-01` — comparator-equal, structurally distinct, different hashes — the
code rejects the add: `should_add` falls through every branch and returns
Python `None`. -/
theorem claim_C6_counterexample :
    Vercmp.vercmp c6New.version.vstr c6Old.version.vstr = 0
    ∧ c6New.sha256 ≠ c6Old.sha256
    ∧ Db.shouldAdd c6New c6Old false = none
    ∧ (Db.Database.add c6Db true "foo-1.0-1-x86_64.pkg.tar.zst" c6New false).2 = false := by
  decide

def c2Old : Pkg := ⟨"foo", ⟨0, "1.0".data, "2".data⟩, some "x86_64", "h1", 10⟩

def c2New : Pkg := ⟨"foo", ⟨0, "1.0".data, "1".data⟩, some "x86_64", "h2", 11⟩

def c2Db : Db.Database := ⟨[c2Old], [("foo", c2Old)], [], [], [], []⟩

/-- C2: `add` appends the (record, file) pair to `_new_files` before the
`should_add` acceptance check, so a rejected downgrade still appears in what
`save` returns: adding `foo-1.0-1` against an on-disk `foo-1.0-2` without
`allow_downgrade` is rejected, no rebuild tool runs — yet `save` returns the
rejected pair instead of the empty list. -/
theorem claim_C2_save_returns_rejected :
    (Db.Database.add c2Db true "foo-1.0-1-x86_64.pkg.tar.zst" c2New false).2 = false
    ∧ ((Db.Database.add c2Db true "foo-1.0-1-x86_64.pkg.tar.zst" c2New false).1.save []).2 =
        ⟨none, none, false, [(c2New, "foo-1.0-1-x86_64.pkg.tar.zst")]⟩
    ∧ [(c2New, "foo-1.0-1-x86_64.pkg.tar.zst")] ≠ ([] : List (Pkg × String)) := by
  decide

def c4m : Oci.OciManifest :=
  ⟨"pkg", "1.0-1".data, "org/repo", [⟨"cafe", Mimes.BYTES, 5⟩], none, none⟩

def c4desc : Oci.Desc := ⟨Mimes.MANIFEST, c4m.toObj, some ⟨"darwin", "arm64"⟩⟩

def c4idx : Oci.IndexVal := ⟨2, Mimes.INDEX, [c4desc], "pkg", "1.0-1".data⟩

def c4st : Oci.OciReg := ⟨[("ns", c4m.toObj)], [(("ns", "1.0-1".data), c4idx)]⟩

/-- C4: the index at the tag holds one well-formed entry for exactly the
requested platform, whose referenced manifest's config digest equals the new
manifest's config digest — the claimed (and, per
`Repository._check_package_existence`, intended) classification is EXISTS;
`OciWrapper.check_existence` returns NONE and puts the matching entry in
`other_manifests`, because `platform == mmm["platform"]` compares the
`str` argument with the platform dict and is therefore never true. -/
theorem claim_C4_counterexample :
    c4desc.platform = some ⟨"darwin", "arm64"⟩
    ∧ c4desc.digest.configDigest = c4m.cfg.sha256
    ∧ Oci.checkExistence c4st "ns" c4m (some "arm64") = (.NONE, [c4desc])
    ∧ Oci.Existence.NONE ≠ Oci.Existence.EXISTS := by
  decide

def c5mA : Oci.OciManifest := ⟨"pkg", "2.0-1".data, "r", [⟨"da", Mimes.BYTES, 1⟩], none, none⟩

def c5mB : Oci.OciManifest := ⟨"pkg", "2.0-1".data, "r", [⟨"db", Mimes.BYTES, 1⟩], none, none⟩

/-- C5: uploading version `2.0-1` for arm64 then amd64 does produce one index
with exactly the two platform descriptors; but re-uploading arm64 with
identical content afterwards does not short-circuit with EXISTS: it returns
UPLOADED, performs writes, and the index ends up with three descriptors, the
arm64 one duplicated — because `check_existence` compares the string
platform with the platform dict and never matches a platformed entry. -/
theorem claim_C5_reupload_duplicates :
    (Oci.tagGet (Oci.upload (Oci.upload ⟨[], []⟩ "org" c5mA (some "arm64")).2.1
          "org" c5mB (some "amd64")).2.1.tags ("org/pkg", c5mA.tag)).map
        (fun i => i.manifests.map (·.platform)) =
      some [some ⟨"darwin", "arm64"⟩, some ⟨"darwin", "amd64"⟩]
    ∧ (Oci.upload (Oci.upload (Oci.upload ⟨[], []⟩ "org" c5mA (some "arm64")).2.1
          "org" c5mB (some "amd64")).2.1 "org" c5mA (some "arm64")).1 = .UPLOADED
    ∧ (Oci.upload (Oci.upload (Oci.upload ⟨[], []⟩ "org" c5mA (some "arm64")).2.1
          "org" c5mB (some "amd64")).2.1 "org" c5mA (some "arm64")).2.2 ≠ []
    ∧ (Oci.tagGet (Oci.upload (Oci.upload (Oci.upload ⟨[], []⟩ "org" c5mA (some "arm64")).2.1
          "org" c5mB (some "amd64")).2.1 "org" c5mA (some "arm64")).2.1.tags
        ("org/pkg", c5mA.tag)).map (fun i => i.manifests.map (·.platform)) =
      some [some ⟨"darwin", "arm64"⟩, some ⟨"darwin", "amd64"⟩, some ⟨"darwin", "arm64"⟩]
    ∧ Oci.UploadResult.UPLOADED ≠ Oci.UploadResult.EXISTS := by
  decide

def c3pkg : Pkg := ⟨"foo", ⟨0, "1.0".data, "1".data⟩, some "x86_64", "abc", 3⟩

/-- C3, counterexample: a fresh package upload through
`Repository._upload_package` emits
HEAD, POST, PUT(blob), PUT(index-at-tag), PUT(manifest): the mutable-tag
index PUT is the second-to-last write and precedes the content-addressed
manifest PUT it references, so it is not the last write of the sequence. -/
theorem claim_C3_counterexample :
    (Reg.uploadPackage ⟨[], [], []⟩ "org" c3pkg false true).2 =
      [.headBlob "org/foo" "abc", .postBlob "org/foo", .putBlob "org/foo" "abc",
        .putIndex "org/foo" "1.0-1".data,
        .putManifest "org/foo" (Reg.pkgManifest c3pkg "org" false)]
    ∧ ((Reg.uploadPackage ⟨[], [], []⟩ "org" c3pkg false true).2.filter
        Reg.RWOp.isWrite).getLast? =
      some (.putManifest "org/foo" (Reg.pkgManifest c3pkg "org" false))
    ∧ Reg.RWOp.putIndex "org/foo" "1.0-1".data ∈
        (Reg.uploadPackage ⟨[], [], []⟩ "org" c3pkg false true).2.filter Reg.RWOp.isWrite
    ∧ (Reg.RWOp.putManifest "org/foo" (Reg.pkgManifest c3pkg "org" false)) ≠
        (Reg.RWOp.putIndex "org/foo" "1.0-1".data) := by
  decide

def c10v : PVersion := ⟨0, "1.0".data, "2:3".data⟩

/-- C10, counterexample: for `Version(0, "1.0", "2:3")` — non-negative
epoch, `pkgver` free of `-` and `:`, `pkgrel` free of `-` — the string form
is `1.0-2:3`; `parse` sees the colon, splits into `["1.0-2", "3"]` and fails
in `int("1.0-2")` (`ValueError`), so the round trip does not hold without
also excluding `:` from `pkgrel`. -/
theorem claim_C10_counterexample :
    (0 : Int) ≤ c10v.epoch
    ∧ ¬ '-' ∈ c10v.pkgver ∧ ¬ ':' ∈ c10v.pkgver ∧ ¬ '-' ∈ c10v.pkgrel
    ∧ PVersion.parse c10v.vstr = none
    ∧ PVersion.parse c10v.vstr ≠ some c10v := by
  decide

/-- C7, amended: no comparison in the system realises comparator-based
equality. `version.py`'s `Version.__eq__` is written to delegate to the
comparator, but its opening `isinstance(other, Self)` guard raises
`TypeError` on every call, so that method never computes vercmp equality;
and `Database.add` operates on `package.py`'s `Version`, whose generated
equality is structural. Structural equality implies comparator equality and
not conversely; `should_add`'s equal-version branch fires exactly on
structural equality, and a comparator-equal but structurally distinct pair
falls through every branch and is rejected. -/
theorem claim_C7_equality_split :
    (∀ u v : PVersion, PVersion.pyEq u v = .error "TypeError")
    ∧ (∀ u v : PVersion, u = v → Vercmp.vercmp u.vstr v.vstr = 0)
    ∧ (∃ u v : PVersion, Vercmp.vercmp u.vstr v.vstr = 0 ∧ u ≠ v)
    ∧ (∀ (np op : Pkg) (ad : Bool), op.version = np.version →
        Db.shouldAdd np op ad = (if np.sha256 = op.sha256 then some false else some true))
    ∧ (∀ (np op : Pkg) (ad : Bool),
        Vercmp.vercmp np.version.vstr op.version.vstr = 0 →
        Vercmp.vercmp op.version.vstr np.version.vstr = 0 →
        op.version ≠ np.version →
        Db.shouldAdd np op ad = none) := by
  refine ⟨?_, ?_, ?_, ?_, ?_⟩
  · intro u v
    rfl
  · intro u v h
    subst h
    exact Vercmp.vercmp_self _
  · exact ⟨c7u, c7v, by decide, by decide⟩
  · intro np op ad h
    unfold Db.shouldAdd PVersion.vgt PVersion.structEq
    rw [h]
    simp [Vercmp.vercmp_self]
  · intro np op ad h1 h2 hne
    unfold Db.shouldAdd PVersion.vgt PVersion.structEq
    simp [h1, h2, beq_iff_eq, hne]

theorem claim_C7_witness :
    ((⟨"p", ⟨0, "2.0".data, "3".data⟩, some "any", "s", 1⟩ : Pkg).version =
      (⟨"p", ⟨0, "2.0".data, "3".data⟩, some "any", "s", 1⟩ : Pkg).version)
    ∧ Db.shouldAdd ⟨"p", ⟨0, "2.0".data, "3".data⟩, some "any", "s", 1⟩
        ⟨"p", ⟨0, "2.0".data, "3".data⟩, some "any", "s", 1⟩ false = some false := by
  refine ⟨rfl, ?_⟩
  have h := claim_C7_equality_split.2.2.2.1
    ⟨"p", ⟨0, "2.0".data, "3".data⟩, some "any", "s", 1⟩
    ⟨"p", ⟨0, "2.0".data, "3".data⟩, some "any", "s", 1⟩ false rfl
  simpa using h

/-- C6, amended: `Database.add`'s supersede decision, with "the versions are
equal" meaning structural equality of the `(epoch, pkgver, pkgrel)` triple
(the dataclass equality the code actually uses), not comparator equality:
strictly newer by the comparator → accept, queueing the on-disk record for
removal; structurally equal and same hash → rejected no-op; structurally
equal and different hash → proceed as if newer; strictly older by the
comparator (and not structurally equal) → rejected unless `allow_downgrade`,
which accepts and queues the prior on-disk record for removal. The same
holds for a record that is only staged, without the removal queueing.
A comparator-equal but structurally distinct pair falls through every branch
and is rejected (see the counterexample). -/
theorem claim_C6_add_branches (db : Db.Database) (file : String) (np : Pkg) (ad : Bool) :
    (∀ op, Db.dictGet db.names np.name = some op →
      (PVersion.vgt np.version op.version = true →
        Db.Database.add db true file np ad =
          ({ packages := db.packages, names := db.names,
             additions := db.additions ++ [file],
             addNames := Db.dictPut db.addNames np.name np,
             newFiles := db.newFiles ++ [(np, file)],
             removals := db.removals ++ [op] }, true))
      ∧ (op.version = np.version → np.sha256 = op.sha256 →
        Db.Database.add db true file np ad =
          ({ db with newFiles := db.newFiles ++ [(np, file)] }, false))
      ∧ (op.version = np.version → np.sha256 ≠ op.sha256 →
        Db.Database.add db true file np ad =
          ({ packages := db.packages, names := db.names,
             additions := db.additions ++ [file],
             addNames := Db.dictPut db.addNames np.name np,
             newFiles := db.newFiles ++ [(np, file)],
             removals := db.removals ++ [op] }, true))
      ∧ (PVersion.vgt np.version op.version = false → op.version ≠ np.version →
         PVersion.vgt op.version np.version = true →
        Db.Database.add db true file np ad =
          (if ad then
            ({ packages := db.packages, names := db.names,
               additions := db.additions ++ [file],
               addNames := Db.dictPut db.addNames np.name np,
               newFiles := db.newFiles ++ [(np, file)],
               removals := db.removals ++ [op] }, true)
          else ({ db with newFiles := db.newFiles ++ [(np, file)] }, false))))
    ∧ (∀ op, Db.dictGet db.names np.name = none →
        Db.dictGet db.addNames np.name = some op →
      (PVersion.vgt np.version op.version = true →
        Db.Database.add db true file np ad =
          ({ packages := db.packages, names := db.names,
             additions := db.additions ++ [file],
             addNames := Db.dictPut db.addNames np.name np,
             newFiles := db.newFiles ++ [(np, file)],
             removals := db.removals }, true))
      ∧ (op.version = np.version → np.sha256 = op.sha256 →
        Db.Database.add db true file np ad =
          ({ db with newFiles := db.newFiles ++ [(np, file)] }, false))
      ∧ (op.version = np.version → np.sha256 ≠ op.sha256 →
        Db.Database.add db true file np ad =
          ({ packages := db.packages, names := db.names,
             additions := db.additions ++ [file],
             addNames := Db.dictPut db.addNames np.name np,
             newFiles := db.newFiles ++ [(np, file)],
             removals := db.removals }, true))
      ∧ (PVersion.vgt np.version op.version = false → op.version ≠ np.version →
         PVersion.vgt op.version np.version = true →
        Db.Database.add db true file np ad =
          (if ad then
            ({ packages := db.packages, names := db.names,
               additions := db.additions ++ [file],
               addNames := Db.dictPut db.addNames np.name np,
               newFiles := db.newFiles ++ [(np, file)],
               removals := db.removals }, true)
          else ({ db with newFiles := db.newFiles ++ [(np, file)] }, false)))) := by
  constructor
  · intro op hget
    refine ⟨?_, ?_, ?_, ?_⟩
    · intro h1
      simp [Db.Database.add, hget, Db.shouldAdd, h1]
    · intro hv hs
      have hsa : Db.shouldAdd np op ad = some false := by
        unfold Db.shouldAdd PVersion.vgt PVersion.structEq
        rw [hv]
        simp [Vercmp.vercmp_self, hs]
      simp [Db.Database.add, hget, hsa]
    · intro hv hs
      have hsa : Db.shouldAdd np op ad = some true := by
        unfold Db.shouldAdd PVersion.vgt PVersion.structEq
        rw [hv]
        simp [Vercmp.vercmp_self, hs]
      simp [Db.Database.add, hget, hsa]
    · intro h1 hv h2
      have hsa : Db.shouldAdd np op ad = some ad := by
        unfold Db.shouldAdd PVersion.vgt PVersion.structEq
        unfold PVersion.vgt at h1 h2
        simp [h1, h2, beq_iff_eq, hv]
      cases ad with
      | false => simp [Db.Database.add, hget, hsa]
      | true => simp [Db.Database.add, hget, hsa]
  · intro op hnone hget
    refine ⟨?_, ?_, ?_, ?_⟩
    · intro h1
      simp [Db.Database.add, hnone, hget, Db.shouldAdd, h1]
    · intro hv hs
      have hsa : Db.shouldAdd np op ad = some false := by
        unfold Db.shouldAdd PVersion.vgt PVersion.structEq
        rw [hv]
        simp [Vercmp.vercmp_self, hs]
      simp [Db.Database.add, hnone, hget, hsa]
    · intro hv hs
      have hsa : Db.shouldAdd np op ad = some true := by
        unfold Db.shouldAdd PVersion.vgt PVersion.structEq
        rw [hv]
        simp [Vercmp.vercmp_self, hs]
      simp [Db.Database.add, hnone, hget, hsa]
    · intro h1 hv h2
      have hsa : Db.shouldAdd np op ad = some ad := by
        unfold Db.shouldAdd PVersion.vgt PVersion.structEq
        unfold PVersion.vgt at h1 h2
        simp [h1, h2, beq_iff_eq, hv]
      cases ad with
      | false => simp [Db.Database.add, hnone, hget, hsa]
      | true => simp [Db.Database.add, hnone, hget, hsa]

def c6wOld : Pkg := ⟨"foo", ⟨0, "1.0".data, "1".data⟩, some "x86_64", "ha", 5⟩

def c6wNew : Pkg := ⟨"foo", ⟨0, "1.0".data, "2".data⟩, some "x86_64", "hb", 6⟩

def c6wDb : Db.Database := ⟨[c6wOld], [("foo", c6wOld)], [], [], [], []⟩

theorem claim_C6_witness :
    Db.dictGet c6wDb.names c6wNew.name = some c6wOld
    ∧ PVersion.vgt c6wNew.version c6wOld.version = true
    ∧ Db.Database.add c6wDb true "f" c6wNew false =
        ({ packages := [c6wOld], names := [("foo", c6wOld)],
           additions := ["f"], addNames := [("foo", c6wNew)],
           newFiles := [(c6wNew, "f")], removals := [c6wOld] }, true) := by
  refine ⟨by decide, by decide, ?_⟩
  have h := ((claim_C6_add_branches c6wDb "f" c6wNew false).1 c6wOld (by decide)).1 (by decide)
  simpa [c6wDb, c6wOld, c6wNew, Db.dictPut] using h

/-- C3, amended: in `OciWrapper.upload` the index PUT at the mutable
sanitised-version tag is indeed the last write, after the content-addressed
manifest PUT; but in `Repository._upload_package` the order is reversed:
whenever the trace contains the index-tag PUT, that PUT immediately
precedes the final content-addressed manifest PUT, so there the mutable tag
is written before the manifest it references exists. -/
theorem claim_C3_index_put_order :
    (∀ (st : Oci.OciReg) (remote : String) (m : Oci.OciManifest) (p : Option String),
      (Oci.upload st remote m p).2.2 ≠ [] →
      (Oci.upload st remote m p).2.2 =
          [.putManifest (remote ++ "/" ++ m.name) m.toObj,
            .putIndex (remote ++ "/" ++ m.name) m.tag]
      ∧ ((Oci.upload st remote m p).2.2.filter Oci.WOp.isWrite).getLast? =
          some (.putIndex (remote ++ "/" ++ m.name) m.tag))
    ∧ (∀ (st : Reg.RReg) (remote : String) (pkg : Pkg) (g postOk : Bool),
        (Reg.RWOp.putIndex (remote ++ "/" ++ Reg.sanitisedName pkg.name)
            pkg.version.sanitise) ∈ (Reg.uploadPackage st remote pkg g postOk).2 →
        ∃ pre, (Reg.uploadPackage st remote pkg g postOk).2 =
          pre ++ [Reg.RWOp.putIndex (remote ++ "/" ++ Reg.sanitisedName pkg.name)
                    pkg.version.sanitise,
                  Reg.RWOp.putManifest (remote ++ "/" ++ Reg.sanitisedName pkg.name)
                    (Reg.pkgManifest pkg remote g)]) := by
  constructor
  · intro st remote m p hne
    rcases hc : Oci.checkExistence st (remote ++ "/" ++ m.name) m p with ⟨ex, others⟩
    cases ex with
    | EXISTS => exact absurd (by simp [Oci.upload, hc]) hne
    | NONE => exact ⟨by simp [Oci.upload, hc], by simp [Oci.upload, hc, Oci.WOp.isWrite]⟩
    | CONFLICTS => exact ⟨by simp [Oci.upload, hc], by simp [Oci.upload, hc, Oci.WOp.isWrite]⟩
  · intro st remote pkg g postOk hmem
    rcases hc : Reg.checkPackageExistence st
      (remote ++ "/" ++ Reg.sanitisedName pkg.name) pkg with ⟨ex, others⟩
    cases ex with
    | EXISTS => simp [Reg.uploadPackage, hc] at hmem
    | NONE =>
      by_cases hb : ((remote ++ "/" ++ Reg.sanitisedName pkg.name), pkg.sha256) ∈ st.blobs
      · exact ⟨[.headBlob (remote ++ "/" ++ Reg.sanitisedName pkg.name) pkg.sha256],
          by simp [Reg.uploadPackage, hc, hb]⟩
      · cases postOk with
        | false => simp [Reg.uploadPackage, hc, hb] at hmem
        | true =>
          exact ⟨[.headBlob (remote ++ "/" ++ Reg.sanitisedName pkg.name) pkg.sha256,
              .postBlob (remote ++ "/" ++ Reg.sanitisedName pkg.name),
              .putBlob (remote ++ "/" ++ Reg.sanitisedName pkg.name) pkg.sha256],
            by simp [Reg.uploadPackage, hc, hb]⟩
    | CONFLICTS =>
      by_cases hb : ((remote ++ "/" ++ Reg.sanitisedName pkg.name), pkg.sha256) ∈ st.blobs
      · exact ⟨[.headBlob (remote ++ "/" ++ Reg.sanitisedName pkg.name) pkg.sha256],
          by simp [Reg.uploadPackage, hc, hb]⟩
      · cases postOk with
        | false => simp [Reg.uploadPackage, hc, hb] at hmem
        | true =>
          exact ⟨[.headBlob (remote ++ "/" ++ Reg.sanitisedName pkg.name) pkg.sha256,
              .postBlob (remote ++ "/" ++ Reg.sanitisedName pkg.name),
              .putBlob (remote ++ "/" ++ Reg.sanitisedName pkg.name) pkg.sha256],
            by simp [Reg.uploadPackage, hc, hb]⟩

def c3wm : Oci.OciManifest := ⟨"w", "3.0-1".data, "r", [⟨"dw", Mimes.BYTES, 1⟩], none, none⟩

theorem claim_C3_witness :
    (Oci.upload ⟨[], []⟩ "org" c3wm none).2.2 ≠ []
    ∧ (Oci.upload ⟨[], []⟩ "org" c3wm none).2.2 =
        [.putManifest ("org" ++ "/" ++ c3wm.name) c3wm.toObj,
          .putIndex ("org" ++ "/" ++ c3wm.name) c3wm.tag]
    ∧ ((Oci.upload ⟨[], []⟩ "org" c3wm none).2.2.filter Oci.WOp.isWrite).getLast? =
        some (.putIndex ("org" ++ "/" ++ c3wm.name) c3wm.tag) := by
  have h := claim_C3_index_put_order.1 ⟨[], []⟩ "org" c3wm none (by decide)
  exact ⟨by decide, h.1, h.2⟩

namespace Oci

/-- The entries the `check_existence` loop actually treats as candidates for
the current slot: manifest-typed entries that are unplatformed, or any
manifest-typed entry when the requested platform is `None`. -/
def isCurrent (p : Option String) (d : Desc) : Bool :=
  d.mediaType == Mimes.MANIFEST && (p.isNone || d.platform.isNone)

/-- The platform disjunct of the loop condition reduces to "no platform was
requested, or the entry is unplatformed": the remaining disjunct compares
the string platform with the platform dict and is never true. -/
theorem scan_match_eq (p : Option String) (q : Option Platform) :
    (match p, q with
      | none, _ => true
      | some _, none => true
      | some a, some r => pyPlatEq (.str a) (.obj r)) = (p.isNone || q.isNone) := by
  cases p <;> cases q <;> simp [pyPlatEq]

theorem scan_go (p : Option String) (ms : List Desc) :
    ∀ acc : Option ManifestVal × List Desc,
      ms.foldl (scanStep p) acc =
        ((match (ms.filter (isCurrent p)).getLast? with
          | some d => some d.digest
          | none => acc.1),
          acc.2 ++ ms.filter (fun d =>
            d.mediaType == Mimes.MANIFEST && !(p.isNone || d.platform.isNone))) := by
  induction ms with
  | nil => intro acc; simp
  | cons d rest ih =>
    intro acc
    rw [List.foldl_cons, ih]
    by_cases hmt : d.mediaType = Mimes.MANIFEST
    · by_cases hcur : (p.isNone || d.platform.isNone) = true
      · have hstep : scanStep p acc d = (some d.digest, acc.2) := by
          simp [scanStep, hmt, scan_match_eq, hcur]
        have hc1 : isCurrent p d = true := by
          unfold isCurrent; rw [hcur]; simp [hmt]
        have hc2 : (d.mediaType == Mimes.MANIFEST && !(p.isNone || d.platform.isNone))
            = false := by
          rw [hcur]; simp
        have hno : ¬(d.mediaType = Mimes.MANIFEST ∧ p.isSome = true
            ∧ d.platform.isSome = true) := by
          rintro ⟨-, hp, hd⟩
          rcases p with _ | a
          · simp at hp
          · rcases hq : d.platform with _ | q
            · rw [hq] at hd; simp at hd
            · rw [hq] at hcur; simp at hcur
        rcases hl : (rest.filter (isCurrent p)).getLast? with _ | e
        · have hnil : rest.filter (isCurrent p) = [] := List.getLast?_eq_none_iff.mp hl
          simp [hstep, List.filter_cons, hc1, hc2, hnil]
          rw [if_neg hno]
        · simp [hstep, List.filter_cons, hc1, hc2, hl, List.getLast?_cons,
            List.getLastD_eq_getLast?]
          rw [if_neg hno]
      · have hcurF : (p.isNone || d.platform.isNone) = false := by
          cases hb : (p.isNone || d.platform.isNone)
          · rfl
          · exact absurd hb hcur
        have hstep : scanStep p acc d = (acc.1, acc.2 ++ [d]) := by
          simp [scanStep, hmt, scan_match_eq, hcurF]
        have hc1 : isCurrent p d = false := by
          unfold isCurrent; rw [hcurF]; simp
        have hp : p.isSome = true := by
          rcases p with _ | a
          · simp at hcurF
          · rfl
        have hd : d.platform.isSome = true := by
          rcases hq : d.platform with _ | q
          · rw [hq] at hcurF; simp at hcurF
          · rfl
        simp [hstep, List.filter_cons, hc1]
        rw [if_pos ⟨hmt, hp, hd⟩]
    · have hstep : scanStep p acc d = acc := by
        simp [scanStep, hmt]
      have hc1 : isCurrent p d = false := by
        simp [isCurrent, hmt]
      simp [hstep, List.filter_cons, hc1]
      rw [if_neg (fun h => hmt h.1)]

/-- Declarative description of the `check_existence` loop: the current slot
is the last entry satisfying `isCurrent`; `other_manifests` is every
manifest-typed entry that does not. -/
theorem scanManifests_eq (p : Option String) (ms : List Desc) :
    scanManifests p ms =
      (((ms.filter (isCurrent p)).getLast?).map (fun d => d.digest),
        ms.filter (fun d =>
          d.mediaType == Mimes.MANIFEST && !(p.isNone || d.platform.isNone))) := by
  rw [scanManifests, scan_go]
  rcases hl : (ms.filter (isCurrent p)).getLast? with _ | e <;> simp [hl]

end Oci

/-- Supporting characterisation for C4: what `OciWrapper.check_existence`
actually computes. Because the code compares its string `platform` argument
against the entry's platform dict, a platformed entry never matches a
requested platform — the current slot is the last manifest-typed entry that
is unplatformed (or the last entry outright when `platform` is `None`), and
`otherManifests` is every manifest-typed entry that is not such a candidate;
an entry carrying exactly the requested platform ends up in `otherManifests`
and cannot yield EXISTS. With a well-formed index at the tag: no candidate →
NONE with those others; a candidate whose referenced manifest is missing →
NONE; a candidate whose well-formed referenced manifest has the same config
digest → EXISTS, a different one → CONFLICTS. No index at the tag →
(NONE, []). -/
theorem claim_C4_check_existence_classification (st : Oci.OciReg) (ns : String)
    (m : Oci.OciManifest) (p : Option String) :
    (Oci.tagGet st.tags (ns, m.tag) = none →
      Oci.checkExistence st ns m p = (.NONE, []))
    ∧ (∀ idx, Oci.tagGet st.tags (ns, m.tag) = some idx →
        idx.schemaVersion = 2 → idx.mediaType = Mimes.INDEX →
        ((idx.manifests.filter (Oci.isCurrent p)).getLast? = none →
          Oci.checkExistence st ns m p =
            (.NONE, idx.manifests.filter (fun d =>
              d.mediaType == Mimes.MANIFEST && !(p.isNone || d.platform.isNone))))
        ∧ (∀ c, (idx.manifests.filter (Oci.isCurrent p)).getLast? = some c →
            ((ns, c.digest) ∉ st.manifests →
              Oci.checkExistence st ns m p =
                (.NONE, idx.manifests.filter (fun d =>
                  d.mediaType == Mimes.MANIFEST && !(p.isNone || d.platform.isNone))))
            ∧ ((ns, c.digest) ∈ st.manifests →
                c.digest.schemaVersion = 2 → c.digest.mediaType = Mimes.MANIFEST →
                c.digest.configMediaType = Mimes.CONFIG →
                Oci.checkExistence st ns m p =
                  (if c.digest.configDigest = m.cfg.sha256
                   then (.EXISTS, idx.manifests.filter (fun d =>
                     d.mediaType == Mimes.MANIFEST && !(p.isNone || d.platform.isNone)))
                   else (.CONFLICTS, idx.manifests.filter (fun d =>
                     d.mediaType == Mimes.MANIFEST && !(p.isNone || d.platform.isNone))))))) := by
  constructor
  · intro h
    simp [Oci.checkExistence, h]
  · intro idx hidx hsv hmedia
    constructor
    · intro hnone
      simp [Oci.checkExistence, hidx, hsv, hmedia, Oci.scanManifests_eq, hnone]
    · intro c hc
      constructor
      · intro hmiss
        simp [Oci.checkExistence, hidx, hsv, hmedia, Oci.scanManifests_eq, hc, hmiss]
      · intro hmem hcsv hcmt hccm
        by_cases hdig : c.digest.configDigest = m.cfg.sha256
        · simp [Oci.checkExistence, hidx, hsv, hmedia, Oci.scanManifests_eq, hc, hmem,
            hcsv, hcmt, hccm, hdig]
        · simp [Oci.checkExistence, hidx, hsv, hmedia, Oci.scanManifests_eq, hc, hmem,
            hcsv, hcmt, hccm, hdig]

theorem claim_C4_witness :
    Oci.tagGet c4st.tags ("ns", c4m.tag) = some c4idx
    ∧ (c4idx.manifests.filter (Oci.isCurrent (some "arm64"))).getLast? = none
    ∧ Oci.checkExistence c4st "ns" c4m (some "arm64") = (.NONE, [c4desc]) := by
  refine ⟨by decide, by decide, ?_⟩
  have h := ((claim_C4_check_existence_classification c4st "ns" c4m (some "arm64")).2
    c4idx (by decide) (by decide) (by decide)).1 (by decide)
  exact h.trans (by decide)

/-! ### Round-trip lemmas for `Version.parse` and `Version.__str__` -/

namespace Py

theorem isDigit_ne_colon {c : Char} (h : c.isDigit = true) : c ≠ ':' := by
  intro he
  rw [he] at h
  exact absurd h (by decide)

theorem isDigit_ne_hyphen {c : Char} (h : c.isDigit = true) : c ≠ '-' := by
  intro he
  rw [he] at h
  exact absurd h (by decide)

theorem digitChar_isDigit {d : Nat} (h : d < 10) : (digitChar d).isDigit = true := by
  interval_cases d <;> decide

theorem digitVal_digitChar {d : Nat} (h : d < 10) : digitVal (digitChar d) = d := by
  interval_cases d <;> decide

theorem natDecimal_ne_nil (n : Nat) : natDecimal n ≠ [] := by
  rw [natDecimal]
  by_cases h : n < 10 <;> simp [h]

theorem natDecimal_all_digits (n : Nat) :
    ∀ c ∈ natDecimal n, c.isDigit = true := by
  induction n using Nat.strong_induction_on with
  | _ n ih =>
    rw [natDecimal]
    by_cases h : n < 10
    · simp [h, digitChar_isDigit]
    · have hlt : n / 10 < n := Nat.div_lt_self (by omega) (by omega)
      simp only [h, dif_neg, not_false_iff]
      intro c hc
      rcases List.mem_append.mp hc with hc | hc
      · exact ih _ hlt c hc
      · rcases List.mem_singleton.mp hc with rfl
        exact digitChar_isDigit (Nat.mod_lt _ (by omega))

theorem digitsVal_append_single (l : List Char) (c : Char) :
    digitsVal (l ++ [c]) = 10 * digitsVal l + digitVal c := by
  simp [digitsVal, List.foldl_append]

theorem digitsVal_natDecimal (n : Nat) : digitsVal (natDecimal n) = n := by
  induction n using Nat.strong_induction_on with
  | _ n ih =>
    rw [natDecimal]
    by_cases h : n < 10
    · simp [h, digitsVal, digitVal_digitChar h]
    · have hlt : n / 10 < n := Nat.div_lt_self (by omega) (by omega)
      simp only [h, dif_neg, not_false_iff]
      rw [digitsVal_append_single, ih _ hlt, digitVal_digitChar (Nat.mod_lt _ (by omega))]
      omega

theorem pyNat_natDecimal (n : Nat) : pyNat (natDecimal n) = some n := by
  have hne : (natDecimal n).isEmpty = false := by
    rcases hl : natDecimal n with _ | _
    · exact absurd hl (natDecimal_ne_nil n)
    · rfl
  have hall : (natDecimal n).all Char.isDigit = true :=
    List.all_eq_true.mpr (natDecimal_all_digits n)
  simp [pyNat, hne, hall, digitsVal_natDecimal]

theorem pyInt_natDecimal (n : Nat) : pyInt (natDecimal n) = some (n : Int) := by
  rcases hl : natDecimal n with _ | ⟨c, rest⟩
  · exact absurd hl (natDecimal_ne_nil n)
  · have hc : c ≠ '-' := by
      have hd : c.isDigit = true := natDecimal_all_digits n c (hl ▸ List.mem_cons_self c rest)
      exact isDigit_ne_hyphen hd
    rw [pyInt]
    rw [if_neg hc, ← hl, pyNat_natDecimal]
    rfl

theorem split_ne_nil (c : Char) (l : List Char) : split c l ≠ [] := by
  cases l with
  | nil => simp [split]
  | cons x xs =>
    rw [split]
    rcases hs : split c xs with _ | ⟨h0, t⟩
    · by_cases hx : x = c <;> simp [hx]
    · by_cases hx : x = c <;> simp [hx]

theorem split_not_contains (c : Char) (l : List Char) (h : ¬ c ∈ l) :
    split c l = [l] := by
  induction l with
  | nil => rfl
  | cons x xs ih =>
    have hx : ¬ x = c := by
      rintro rfl
      exact h (List.mem_cons_self _ _)
    have h' : ¬ c ∈ xs := fun hm => h (List.mem_cons_of_mem _ hm)
    rw [split, ih h']
    simp [hx]

theorem split_append (c : Char) (a b : List Char) (ha : ¬ c ∈ a) :
    split c (a ++ c :: b) = a :: split c b := by
  induction a with
  | nil =>
    rcases hs : split c b with _ | ⟨h0, t⟩
    · exact absurd hs (split_ne_nil c b)
    · rw [List.nil_append, split, hs]
      simp
  | cons x xs ih =>
    have hx : ¬ x = c := by
      rintro rfl
      exact ha (List.mem_cons_self _ _)
    have ha' : ¬ c ∈ xs := fun hm => ha (List.mem_cons_of_mem _ hm)
    rw [List.cons_append, split, ih ha']
    simp [hx]

theorem splitAtLast_not_contains (c : Char) (l : List Char) (h : ¬ c ∈ l) :
    splitAtLast c l = none := by
  induction l with
  | nil => rfl
  | cons x xs ih =>
    have hx : ¬ x = c := by
      rintro rfl
      exact h (List.mem_cons_self _ _)
    have h' : ¬ c ∈ xs := fun hm => h (List.mem_cons_of_mem _ hm)
    rw [splitAtLast, ih h']
    simp [hx]

theorem splitAtLast_append (c : Char) (a b : List Char) (hb : ¬ c ∈ b) :
    splitAtLast c (a ++ c :: b) = some (a, b) := by
  induction a with
  | nil =>
    rw [List.nil_append, splitAtLast, splitAtLast_not_contains c b hb]
    simp
  | cons x xs ih =>
    rw [List.cons_append, splitAtLast, ih]

theorem rsplit1_append (c : Char) (a b : List Char) (hb : ¬ c ∈ b) :
    rsplit1 c (a ++ c :: b) = [a, b] := by
  rw [rsplit1, splitAtLast_append c a b hb]

end Py

/-- C10, amended: the round trip `parse (str v) = v` holds for every
`Version` with non-negative epoch whose `pkgver` contains no `-` and no `:`
and whose `pkgrel` contains no `-` **and no `:`** (the extra exclusion the
counterexample forces: a colon in `pkgrel` makes `parse` split on it and
fail in `int()`); an epoch of 0 is omitted from the string form and
reparsed as 0, and `str` is injective on such values. -/
theorem claim_C10_roundtrip (v : PVersion) (he : 0 ≤ v.epoch)
    (h1 : ¬ '-' ∈ v.pkgver) (h2 : ¬ ':' ∈ v.pkgver)
    (h3 : ¬ '-' ∈ v.pkgrel) (h4 : ¬ ':' ∈ v.pkgrel) :
    PVersion.parse v.vstr = some v := by
  rcases v with ⟨e, pv, pr⟩
  simp only at he h1 h2 h3 h4
  have hrest : ¬ ':' ∈ (pv ++ '-' :: pr) := by
    intro hm
    rcases List.mem_append.mp hm with hm | hm
    · exact h2 hm
    · rcases List.mem_cons.mp hm with hm | hm
      · exact absurd hm (by decide)
      · exact h4 hm
  by_cases hpos : (0 : Int) < e
  · have hvstr : PVersion.vstr ⟨e, pv, pr⟩ =
        Py.natDecimal e.natAbs ++ ':' :: (pv ++ '-' :: pr) := by
      have hnn : ¬ e < 0 := by omega
      simp [PVersion.vstr, Py.intStr, hpos, hnn, List.append_assoc]
    have hnc : ¬ ':' ∈ Py.natDecimal e.natAbs := fun hm =>
      Py.isDigit_ne_colon (Py.natDecimal_all_digits e.natAbs _ hm) rfl
    rw [hvstr]
    unfold PVersion.parse
    have hcont : (Py.natDecimal e.natAbs ++ ':' :: (pv ++ '-' :: pr)).contains ':'
        = true := by simp
    rw [hcont]
    rw [Py.split_append ':' _ _ hnc, Py.split_not_contains ':' _ hrest]
    simp [Py.pyInt_natDecimal, Py.rsplit1_append '-' pv pr h3,
      Int.natAbs_of_nonneg he]
  · have he0 : e = 0 := by omega
    subst he0
    have hvstr : PVersion.vstr ⟨0, pv, pr⟩ = pv ++ '-' :: pr := by
      simp [PVersion.vstr]
    rw [hvstr]
    unfold PVersion.parse
    have hcont : (pv ++ '-' :: pr).contains ':' = false := by simp [hrest]
    rw [hcont]
    simp only [Bool.false_eq_true, if_false]
    rw [Py.rsplit1_append '-' pv pr h3]

theorem claim_C10_witness :
    ((0 : Int) ≤ (⟨2, "1.0".data, "3".data⟩ : PVersion).epoch
      ∧ ¬ '-' ∈ (⟨2, "1.0".data, "3".data⟩ : PVersion).pkgver
      ∧ ¬ ':' ∈ (⟨2, "1.0".data, "3".data⟩ : PVersion).pkgver
      ∧ ¬ '-' ∈ (⟨2, "1.0".data, "3".data⟩ : PVersion).pkgrel
      ∧ ¬ ':' ∈ (⟨2, "1.0".data, "3".data⟩ : PVersion).pkgrel)
    ∧ PVersion.parse (PVersion.vstr ⟨2, "1.0".data, "3".data⟩) =
        some ⟨2, "1.0".data, "3".data⟩ := by
  exact ⟨⟨by decide, by decide, by decide, by decide, by decide⟩,
    claim_C10_roundtrip ⟨2, "1.0".data, "3".data⟩ (by decide) (by decide) (by decide)
      (by decide) (by decide)⟩
